import Mathlib

/-
Verification development for the anaya_libros capture-and-assemble tool.

The program drives a browser over an ordered mapping of documents, pages
through each document capturing screenshots of "pageSection" elements into
numbered PNG files, and assembles the captured images into one PDF.
The browser world is embedded as explicit data: a `Page` records what the
DOM presents at one pagination state (whether the content container appears
within the bounded wait, the section element ids in DOM order, and the class
attribute of the page_next control, when that control exists); a `Document`
is the finite sequence of pagination states its URL leads through.
Fallible operations return `Except Err`.
-/

namespace AL

/-- Error classes of the run, one per taxonomy entry of the program:
navigation wait expiry, a missing expected element, PDF assembly on an empty
list (IndexError class), an unreadable image path (FileNotFoundError class),
and a missing configuration file (FileNotFoundError class). -/
inductive Err where
  | navigationTimeout
  | elementNotFound
  | emptyInput
  | imageReadFailure
  | configNotFound
  deriving DecidableEq, Repr

/-- One pagination state of a loaded document: whether div.content becomes
present within the bounded wait, the ids of the pageSection elements inside
it in DOM order, and the class attribute of the page_next control
(`none` when that control is absent from the DOM). -/
structure Page where
  contentAppears : Bool
  sections : List String
  nextClass : Option String
  deriving DecidableEq, Repr

/-- A document as the browser world presents it: the sequence of pagination
states reached by the initial load followed by successive clicks of the
page_next control. An exhausted sequence means nothing further appears after
a click, which the program observes as a wait expiry. -/
structure Document where
  pages : List Page
  deriving DecidableEq, Repr

/-- Python string formatting with format spec 04 applied to a natural number:
the decimal digits, left-padded with zeros to a minimum width of 4. -/
def pad4 (n : Nat) : String :=
  let s := toString n
  String.mk (List.replicate (4 - s.length) '0') ++ s

/-- The file path written for capture number n:
os.path.join of IMAGES_DIR (= "output/images") with the padded name. -/
def imgPath (n : Nat) : String :=
  "output/images/" ++ pad4 n ++ ".png"

/-- Whether the character list starting here begins with the given needle. -/
def startsSeq : List Char → List Char → Bool
  | [], _ => true
  | _ :: _, [] => false
  | a :: as, b :: bs => a == b && startsSeq as bs

/-- Whether the needle occurs as a contiguous subsequence of the haystack:
Python substring membership on character lists. -/
def containsSeq (needle : List Char) : List Char → Bool
  | [] => needle.isEmpty
  | b :: bs => startsSeq needle (b :: bs) || containsSeq needle bs

/-- Python membership test: the string "disabled" occurring as a substring of
the class attribute of the page_next control. -/
def hasDisabled (cls : String) : Bool :=
  containsSeq "disabled".toList cls.toList

/-- An image as the assembler sees one: its color mode string and its
untransformed geometry and pixel content (the latter abstracted as an
opaque payload that mode conversion carries over unchanged). -/
structure Img where
  mode : String
  width : Nat
  height : Nat
  payload : Nat
  deriving DecidableEq, Repr

namespace Main

/-- The inner for-loop of collect_images in src/main.py over the sections of
one page: screenshot each section to the path named by the current counter,
append that path, increment the counter. Returns the appended paths, the
screenshot events (section id, file written) in order, and the counter
after the loop. -/
def capturePage (counter : Nat) : List String → List String × List (String × String) × Nat
  | [] => ([], [], counter)
  | s :: ss =>
    let r := capturePage (counter + 1) ss
    (imgPath counter :: r.1, (s, imgPath counter) :: r.2.1, r.2.2)

/-- The while-loop of collect_images in src/main.py for one document, entered
after driver.get and the initial wait; the head of the list is the state the
pending wait observes. Absence of any further state, like a state whose
content container never appears, is the wait expiring. An empty section list
breaks out of the loop before the page_next control is consulted; a class
attribute containing "disabled" breaks out after capturing; otherwise the
click advances to the next state and the loop repeats. -/
def docLoop (counter : Nat) : List Page → Except Err (List String × List (String × String) × Nat)
  | [] => .error .navigationTimeout
  | p :: rest =>
    if p.contentAppears then
      if p.sections.isEmpty then .ok ([], [], counter)
      else
        let r := capturePage counter p.sections
        match p.nextClass with
        | none => .error .elementNotFound
        | some cls =>
          if hasDisabled cls then .ok r
          else
            match docLoop r.2.2 rest with
            | .error e => .error e
            | .ok (ps, sh, c) => .ok (r.1 ++ ps, r.2.1 ++ sh, c)
    else .error .navigationTimeout

/-- The for-loop of collect_images in src/main.py over LINKS.items(): process
each document in insertion order, threading the global counter and
concatenating the captured paths and screenshot events. -/
def collectGo : List (String × Document) → Nat → Except Err (List String × List (String × String) × Nat)
  | [], c => .ok ([], [], c)
  | (_, d) :: ds, c =>
    match docLoop c d.pages with
    | .error e => .error e
    | .ok (ps, sh, c') =>
      match collectGo ds c' with
      | .error e => .error e
      | .ok (ps', sh', c'') => .ok (ps ++ ps', sh ++ sh', c'')

/-- collect_images of src/main.py: all_images starts empty, global_step
starts at 1, and the function returns the accumulated path list. -/
def collect_images (docs : List (String × Document)) : Except Err (List String) :=
  match collectGo docs 1 with
  | .error e => .error e
  | .ok (ps, _, _) => .ok ps

/-- PIL Image.convert("RGB"): the result is in three-channel color mode with
the same dimensions and the same visual content. -/
def convertRGB (i : Img) : Img :=
  { i with mode := "RGB" }

/-- The list comprehension of images_to_pdf in src/main.py: Image.open then
convert("RGB") on each path left to right; an unreadable or missing path
raises at that point, before any output is written. -/
def openAll (fs : String → Option Img) : List String → Except Err (List Img)
  | [] => .ok []
  | p :: ps =>
    match fs p with
    | none => .error .imageReadFailure
    | some i =>
      match openAll fs ps with
      | .error e => .error e
      | .ok rest => .ok (convertRGB i :: rest)

/-- images_to_pdf of src/main.py over a filesystem fs: build the converted
image list, then index pil_images[0] — which on an empty list raises
IndexError — and save a single PDF whose pages are the first image followed
by append_images = the rest, in list order. The returned page list is the
content of the PDF written by the single save call. -/
def images_to_pdf (fs : String → Option Img) (images : List String) : Except Err (List Img) :=
  match openAll fs images with
  | .error e => .error e
  | .ok [] => .error .emptyInput
  | .ok (i0 :: rest) => .ok (i0 :: rest)

/-- The filesystem effect of images_to_pdf: the save call runs only after
every image is opened and converted and the first page is indexed, so on any
error the output filesystem out0 is left unchanged; on success the single
PDF appears at pdf_path. -/
def pdfFileAfter (fs : String → Option Img) (out0 : String → Option (List Img))
    (images : List String) (pdf_path : String) : String → Option (List Img) :=
  match images_to_pdf fs images with
  | .error _ => out0
  | .ok pages => fun p => if p = pdf_path then some pages else out0 p

/-- The outcome of main's try/finally region in src/main.py: which value or
error the body produced, and whether driver.quit() ran. -/
structure RunResult where
  outcome : Except Err (List Img)
  driverClosed : Bool
  deriving Repr

/-- The try/finally region of main in src/main.py: collect_images, then
images_to_pdf on the result; every exit path, the two error paths included,
runs the finally clause closing the driver. -/
def mainRun (docs : List (String × Document)) (fs : String → Option Img) : RunResult :=
  match collect_images docs with
  | .error e => { outcome := .error e, driverClosed := true }
  | .ok images =>
    match images_to_pdf fs images with
    | .error e => { outcome := .error e, driverClosed := true }
    | .ok pdf => { outcome := .ok pdf, driverClosed := true }

end Main

namespace SrcMain

/-- The inner for-loop of collect_images in src/src/main.py over the sections
of one page: screenshot each section to the path named by the current
counter, append that path, increment the counter. -/
def capturePage (counter : Nat) : List String → List String × List (String × String) × Nat
  | [] => ([], [], counter)
  | s :: ss =>
    let r := capturePage (counter + 1) ss
    (imgPath counter :: r.1, (s, imgPath counter) :: r.2.1, r.2.2)

/-- The while-loop of collect_images in src/src/main.py for one document,
with the same break conditions: empty section list, or "disabled" occurring
in the class attribute of the page_next control. -/
def docLoop (counter : Nat) : List Page → Except Err (List String × List (String × String) × Nat)
  | [] => .error .navigationTimeout
  | p :: rest =>
    if p.contentAppears then
      if p.sections.isEmpty then .ok ([], [], counter)
      else
        let r := capturePage counter p.sections
        match p.nextClass with
        | none => .error .elementNotFound
        | some cls =>
          if hasDisabled cls then .ok r
          else
            match docLoop r.2.2 rest with
            | .error e => .error e
            | .ok (ps, sh, c) => .ok (r.1 ++ ps, r.2.1 ++ sh, c)
    else .error .navigationTimeout

/-- The for-loop of collect_images in src/src/main.py over LINKS.items(). -/
def collectGo : List (String × Document) → Nat → Except Err (List String × List (String × String) × Nat)
  | [], c => .ok ([], [], c)
  | (_, d) :: ds, c =>
    match docLoop c d.pages with
    | .error e => .error e
    | .ok (ps, sh, c') =>
      match collectGo ds c' with
      | .error e => .error e
      | .ok (ps', sh', c'') => .ok (ps ++ ps', sh ++ sh', c'')

/-- collect_images of src/src/main.py. -/
def collect_images (docs : List (String × Document)) : Except Err (List String) :=
  match collectGo docs 1 with
  | .error e => .error e
  | .ok (ps, _, _) => .ok ps

/-- The list comprehension of images_to_pdf in src/src/main.py. -/
def openAll (fs : String → Option Img) : List String → Except Err (List Img)
  | [] => .ok []
  | p :: ps =>
    match fs p with
    | none => .error .imageReadFailure
    | some i =>
      match openAll fs ps with
      | .error e => .error e
      | .ok rest => .ok (Main.convertRGB i :: rest)

/-- images_to_pdf of src/src/main.py, a one-line reformatting of the same
body as in src/main.py. -/
def images_to_pdf (fs : String → Option Img) (images : List String) : Except Err (List Img) :=
  match openAll fs images with
  | .error e => .error e
  | .ok [] => .error .emptyInput
  | .ok (i0 :: rest) => .ok (i0 :: rest)

/-- load_config of src/src/main.py over a filesystem of parsed YAML
resources, keyed by path. A parsed resource is modelled as its top-level
mapping from keys to name-to-URL mappings (the only value shape the program
consumes); a missing file raises FileNotFoundError, and config.get with
default returns the value under "links", or the empty mapping when that key
is absent. -/
def load_config (cfgFS : String → Option (List (String × List (String × String))))
    (config_name : String) : Except Err (List (String × String)) :=
  let config_path := "configs/" ++ config_name ++ ".yaml"
  match cfgFS config_path with
  | none => .error .configNotFound
  | some config => .ok ((config.lookup "links").getD [])

end SrcMain

/-- The capture file paths produced by counters c, c+1, ..., c+n-1. -/
def numbered (c n : Nat) : List String :=
  (List.range n).map fun j => imgPath (c + j)

/-- A document world in which the pagination loop runs to natural
completion: at least one pagination state; every state shows the content
container and a nonempty section list; every state but the last carries an
enabled page_next control, and the last a disabled one. Under this shape the
loop visits every page and captures every section. -/
def wfPages : List Page → Bool
  | [] => false
  | [p] => p.contentAppears && !p.sections.isEmpty &&
      (match p.nextClass with | some cls => hasDisabled cls | none => false)
  | p :: q :: rest => p.contentAppears && !p.sections.isEmpty &&
      (match p.nextClass with | some cls => !hasDisabled cls | none => false) &&
      wfPages (q :: rest)

/-- The number of sections a document world presents across its pages. -/
def secCount (pages : List Page) : Nat :=
  (pages.map fun p => p.sections.length).sum

/-- The section ids a document world presents, in page-then-DOM order. -/
def secList (pages : List Page) : List String :=
  (pages.map Page.sections).flatten

/-- The number of sections presented across all configured documents. -/
def totalSec (docs : List (String × Document)) : Nat :=
  (docs.map fun nd => secCount nd.2.pages).sum

/-- A placeholder image value used only to totalize Option lookups under a
hypothesis that rules the default branch out. -/
def dImg : Img :=
  { mode := "", width := 0, height := 0, payload := 0 }

theorem numbered_succ (c n : Nat) :
    numbered c (n + 1) = imgPath c :: numbered (c + 1) n := by
  unfold numbered
  rw [List.range_succ_eq_map]
  simp only [List.map_cons, List.map_map, Nat.add_zero]
  congr 1
  refine List.map_congr_left fun a _ => ?_
  simp only [Function.comp]
  rw [show c + (a + 1) = c + 1 + a by omega]

theorem numbered_length (c n : Nat) : (numbered c n).length = n := by
  simp [numbered]

theorem numbered_getElem (c n j : Nat) (h : j < n) :
    (numbered c n)[j]? = some (imgPath (c + j)) := by
  simp [numbered, List.getElem?_map, List.getElem?_range h]

theorem numbered_append (c a b : Nat) :
    numbered c a ++ numbered (c + a) b = numbered c (a + b) := by
  unfold numbered
  rw [List.range_add, List.map_append, List.map_map]
  refine congrArg _ ?_
  refine List.map_congr_left fun x _ => ?_
  simp only [Function.comp]
  rw [show c + a + x = c + (a + x) by omega]

theorem capturePage_eq (ss : List String) (c : Nat) :
    Main.capturePage c ss =
      (numbered c ss.length, ss.zip (numbered c ss.length), c + ss.length) := by
  induction ss generalizing c with
  | nil => simp [Main.capturePage, numbered]
  | cons s ss ih =>
    simp only [Main.capturePage, ih, List.length_cons, numbered_succ, List.zip_cons_cons,
      Prod.mk.injEq]
    exact ⟨trivial, trivial, by omega⟩

theorem openAll_all_some (fs : String → Option Img) (images : List String)
    (h : ∀ q ∈ images, (fs q).isSome) :
    Main.openAll fs images =
      .ok (images.map fun q => Main.convertRGB ((fs q).getD dImg)) := by
  induction images with
  | nil => rfl
  | cons p ps ih =>
    obtain ⟨i, hi⟩ := Option.isSome_iff_exists.mp (h p (by simp))
    rw [Main.openAll, hi, ih fun q hq => h q (by simp [hq])]
    simp [hi]

theorem openAll_missing (fs : String → Option Img) (images : List String)
    (h : ∃ q ∈ images, fs q = none) :
    Main.openAll fs images = .error .imageReadFailure := by
  induction images with
  | nil => simp at h
  | cons p ps ih =>
    rw [Main.openAll]
    cases hp : fs p with
    | none => rfl
    | some i =>
      obtain ⟨q, hq, hqn⟩ := h
      rcases List.mem_cons.mp hq with rfl | hq'
      · rw [hp] at hqn; cases hqn
      · rw [ih ⟨q, hq', hqn⟩]

/-- C3. images_to_pdf on an empty image list fails with the IndexError-class
EmptyInput error, and the output filesystem is unchanged: no output file is
created at the given path. -/
theorem images_to_pdf_empty_input (fs : String → Option Img)
    (out0 : String → Option (List Img)) (pdf_path : String) :
    Main.images_to_pdf fs [] = .error .emptyInput ∧
    Main.pdfFileAfter fs out0 [] pdf_path = out0 := by
  exact ⟨rfl, rfl⟩

/-- C4. images_to_pdf on a list containing an unreadable or missing path
fails with the FileNotFoundError-class ImageReadFailure error, raised inside
the image-loading comprehension, so the save call never runs and the output
filesystem is unchanged: no partial PDF exists after the failure. -/
theorem images_to_pdf_missing_path (fs : String → Option Img) (images : List String)
    (h : ∃ q ∈ images, fs q = none)
    (out0 : String → Option (List Img)) (pdf_path : String) :
    Main.images_to_pdf fs images = .error .imageReadFailure ∧
    Main.pdfFileAfter fs out0 images pdf_path = out0 := by
  have ho : Main.openAll fs images = .error .imageReadFailure := openAll_missing fs images h
  constructor
  · rw [Main.images_to_pdf, ho]
  · rw [Main.pdfFileAfter, Main.images_to_pdf, ho]

theorem images_to_pdf_missing_path_witness :
    Main.images_to_pdf (fun _ => none) ["output/images/0001.png"] =
        .error .imageReadFailure ∧
    Main.pdfFileAfter (fun _ => none) (fun _ => none) ["output/images/0001.png"]
        "output/result.pdf" = (fun _ => none) := by
  exact images_to_pdf_missing_path (fun _ => none) ["output/images/0001.png"]
    ⟨"output/images/0001.png", by simp, rfl⟩ (fun _ => none) "output/result.pdf"

/-- C5. images_to_pdf on a non-empty list of readable paths succeeds: the
written PDF's pages are exactly the input images in input order, each loaded
and converted to three-channel RGB mode, page 1 being the first image; the
conversion changes only the mode, leaving dimensions and pixel content
untouched, and grayscale or alpha modes are accepted like any other. -/
theorem images_to_pdf_ordered_pages (fs : String → Option Img) (images : List String)
    (hne : images ≠ []) (hall : ∀ q ∈ images, (fs q).isSome) :
    ∃ pages, Main.images_to_pdf fs images = .ok pages ∧
      pages = images.map (fun q => Main.convertRGB ((fs q).getD dImg)) ∧
      (∀ pg ∈ pages, pg.mode = "RGB") ∧
      (∀ (j : Nat) q i, images[j]? = some q → fs q = some i →
        pages[j]? = some (Main.convertRGB i)) ∧
      (∀ i : Img, (Main.convertRGB i).mode = "RGB" ∧ (Main.convertRGB i).width = i.width ∧
        (Main.convertRGB i).height = i.height ∧ (Main.convertRGB i).payload = i.payload) := by
  have ho := openAll_all_some fs images hall
  refine ⟨images.map fun q => Main.convertRGB ((fs q).getD dImg), ?_, rfl, ?_, ?_, ?_⟩
  · rw [Main.images_to_pdf, ho]
    cases images with
    | nil => exact absurd rfl hne
    | cons p ps => rfl
  · intro pg hpg
    obtain ⟨q, _, rfl⟩ := List.mem_map.mp hpg
    rfl
  · intro j q i hj hi
    rw [List.getElem?_map, hj]
    simp [hi]
  · intro i
    exact ⟨rfl, rfl, rfl, rfl⟩

theorem images_to_pdf_ordered_pages_witness :
    (["gray.png", "rgba.png"] : List String) ≠ [] ∧
    (∀ q ∈ (["gray.png", "rgba.png"] : List String),
      ((fun p => if p = "gray.png" then some ⟨"L", 5, 7, 11⟩
        else if p = "rgba.png" then some (⟨"RGBA", 2, 3, 4⟩ : Img) else none) q).isSome) ∧
    ∃ pages, Main.images_to_pdf
        (fun p => if p = "gray.png" then some ⟨"L", 5, 7, 11⟩
          else if p = "rgba.png" then some (⟨"RGBA", 2, 3, 4⟩ : Img) else none)
        ["gray.png", "rgba.png"] = .ok pages ∧
      pages = (["gray.png", "rgba.png"] : List String).map
        (fun q => Main.convertRGB (((fun p => if p = "gray.png" then some ⟨"L", 5, 7, 11⟩
          else if p = "rgba.png" then some (⟨"RGBA", 2, 3, 4⟩ : Img) else none) q).getD dImg)) ∧
      (∀ pg ∈ pages, pg.mode = "RGB") ∧
      (∀ (j : Nat) q i, (["gray.png", "rgba.png"] : List String)[j]? = some q →
        (fun p => if p = "gray.png" then some ⟨"L", 5, 7, 11⟩
          else if p = "rgba.png" then some (⟨"RGBA", 2, 3, 4⟩ : Img) else none) q = some i →
        pages[j]? = some (Main.convertRGB i)) ∧
      (∀ i : Img, (Main.convertRGB i).mode = "RGB" ∧ (Main.convertRGB i).width = i.width ∧
        (Main.convertRGB i).height = i.height ∧ (Main.convertRGB i).payload = i.payload) := by
  refine ⟨by simp, by decide, ?_⟩
  exact images_to_pdf_ordered_pages _ ["gray.png", "rgba.png"] (by simp) (by decide)

theorem docLoop_noContent (c : Nat) (p : Page) (rest : List Page)
    (h : p.contentAppears = false) :
    Main.docLoop c (p :: rest) = .error .navigationTimeout := by
  simp [Main.docLoop, h]

theorem docLoop_emptySections (c : Nat) (p : Page) (rest : List Page)
    (h1 : p.contentAppears = true) (h2 : p.sections = []) :
    Main.docLoop c (p :: rest) = .ok ([], [], c) := by
  simp [Main.docLoop, h1, h2]

theorem docLoop_noNext (c : Nat) (p : Page) (rest : List Page)
    (h1 : p.contentAppears = true) (h2 : p.sections ≠ [])
    (h3 : p.nextClass = none) :
    Main.docLoop c (p :: rest) = .error .elementNotFound := by
  simp [Main.docLoop, h1, h3, List.isEmpty_iff, h2]

theorem docLoop_disabled (c : Nat) (p : Page) (rest : List Page) (cls : String)
    (h1 : p.contentAppears = true) (h2 : p.sections ≠ [])
    (h3 : p.nextClass = some cls) (h4 : hasDisabled cls = true) :
    Main.docLoop c (p :: rest) =
      .ok (numbered c p.sections.length,
        p.sections.zip (numbered c p.sections.length), c + p.sections.length) := by
  simp [Main.docLoop, h1, h3, h4, List.isEmpty_iff, h2, capturePage_eq]

theorem docLoop_advance (c : Nat) (p : Page) (rest : List Page) (cls : String)
    (h1 : p.contentAppears = true) (h2 : p.sections ≠ [])
    (h3 : p.nextClass = some cls) (h4 : hasDisabled cls = false) :
    Main.docLoop c (p :: rest) =
      match Main.docLoop (c + p.sections.length) rest with
      | .error e => .error e
      | .ok (ps, sh, c') =>
        .ok (numbered c p.sections.length ++ ps,
          p.sections.zip (numbered c p.sections.length) ++ sh, c') := by
  simp [Main.docLoop, h1, h3, h4, List.isEmpty_iff, h2, capturePage_eq]

theorem docLoop_ok (pages : List Page) (c : Nat) (ps : List String)
    (sh : List (String × String)) (c' : Nat)
    (h : Main.docLoop c pages = .ok (ps, sh, c')) :
    ps = numbered c ps.length ∧ c' = c + ps.length ∧ ps = sh.map Prod.snd := by
  induction pages generalizing c ps sh c' with
  | nil => exact absurd h (by simp [Main.docLoop])
  | cons p rest ih =>
    cases hca : p.contentAppears with
    | false => rw [docLoop_noContent c p rest hca] at h; cases h
    | true =>
      by_cases hse : p.sections = []
      · rw [docLoop_emptySections c p rest hca hse] at h
        injection h with h'
        simp only [Prod.mk.injEq] at h'
        obtain ⟨h1, h2, h3⟩ := h'
        subst h1; subst h2; subst h3
        exact ⟨by simp [numbered], by simp, by simp⟩
      · cases hn : p.nextClass with
        | none => rw [docLoop_noNext c p rest hca hse hn] at h; cases h
        | some cls =>
          cases hd : hasDisabled cls with
          | true =>
            rw [docLoop_disabled c p rest cls hca hse hn hd] at h
            injection h with h'
            simp only [Prod.mk.injEq] at h'
            obtain ⟨h1, h2, h3⟩ := h'
            subst h1; subst h2; subst h3
            refine ⟨by rw [numbered_length], by rw [numbered_length], ?_⟩
            rw [List.map_snd_zip]
            rw [numbered_length]
          | false =>
            rw [docLoop_advance c p rest cls hca hse hn hd] at h
            cases hrec : Main.docLoop (c + p.sections.length) rest with
            | error e => rw [hrec] at h; cases h
            | ok t =>
              obtain ⟨ps₁, sh₁, c₁⟩ := t
              rw [hrec] at h
              injection h with h'
              simp only [Prod.mk.injEq] at h'
              obtain ⟨h1, h2, h3⟩ := h'
              subst h1; subst h2; subst h3
              obtain ⟨ih1, ih2, ih3⟩ := ih _ _ _ _ hrec
              refine ⟨?_, ?_, ?_⟩
              · rw [List.length_append, numbered_length]
                rw [ih1, numbered_append]
                rw [numbered_length]
              · rw [List.length_append, numbered_length, ih2]
                omega
              · rw [List.map_append, ih3]
                rw [List.map_snd_zip]
                rw [numbered_length]

theorem collectGo_ok (docs : List (String × Document)) (c : Nat) (ps : List String)
    (sh : List (String × String)) (c' : Nat)
    (h : Main.collectGo docs c = .ok (ps, sh, c')) :
    ps = numbered c ps.length ∧ c' = c + ps.length ∧ ps = sh.map Prod.snd := by
  induction docs generalizing c ps sh c' with
  | nil =>
    simp only [Main.collectGo] at h
    injection h with h'
    simp only [Prod.mk.injEq] at h'
    obtain ⟨h1, h2, h3⟩ := h'
    subst h1; subst h2; subst h3
    exact ⟨by simp [numbered], by simp, by simp⟩
  | cons nd ds ih =>
    obtain ⟨nm, d⟩ := nd
    simp only [Main.collectGo] at h
    cases h1 : Main.docLoop c d.pages with
    | error e => rw [h1] at h; cases h
    | ok t =>
      obtain ⟨ps₀, sh₀, c₀⟩ := t
      rw [h1] at h
      dsimp only at h
      cases h2 : Main.collectGo ds c₀ with
      | error e => rw [h2] at h; cases h
      | ok t' =>
        obtain ⟨ps₁, sh₁, c₁⟩ := t'
        rw [h2] at h
        injection h with h'
        simp only [Prod.mk.injEq] at h'
        obtain ⟨e1, e2, e3⟩ := h'
        subst e1; subst e2; subst e3
        obtain ⟨a1, a2, a3⟩ := docLoop_ok _ _ _ _ _ h1
        obtain ⟨b1, b2, b3⟩ := ih _ _ _ _ h2
        subst a2
        refine ⟨?_, ?_, ?_⟩
        · rw [List.length_append]
          conv_lhs => rw [a1, b1]
          rw [numbered_append]
        · rw [List.length_append, b2]
          omega
        · rw [List.map_append, ← a3, ← b3]

/-- C1. In collect_images the global sequence counter starts at 1 and rises
by exactly 1 per captured section with no reset between documents: on any
successful run the j-th returned path (0-based) is the images directory path
of the 4-digit zero-padded number 1 + j with extension .png; the returned
list is exactly the screenshot events' file list in capture order, the final
counter is 1 plus the number of captures, and feeding the list to the PDF
assembler yields pages in exactly that order. -/
theorem collect_images_global_sequence (docs : List (String × Document)) (ps : List String)
    (h : Main.collect_images docs = .ok ps) :
    (∀ j : Nat, j < ps.length → ps[j]? = some (imgPath (1 + j))) ∧
    (∃ sh, Main.collectGo docs 1 = .ok (ps, sh, 1 + ps.length) ∧ ps = sh.map Prod.snd) ∧
    (∀ fs : String → Option Img, (∀ q ∈ ps, (fs q).isSome) → ps ≠ [] →
      Main.images_to_pdf fs ps =
        .ok (ps.map fun q => Main.convertRGB ((fs q).getD dImg))) := by
  rw [Main.collect_images] at h
  cases hg : Main.collectGo docs 1 with
  | error e => rw [hg] at h; cases h
  | ok t =>
    obtain ⟨ps₀, sh₀, c₀⟩ := t
    rw [hg] at h
    injection h with h'
    subst h'
    obtain ⟨a1, a2, a3⟩ := collectGo_ok _ _ _ _ _ hg
    refine ⟨?_, ⟨sh₀, ?_, a3⟩, ?_⟩
    · intro j hj
      have h9 := numbered_getElem 1 ps₀.length j hj
      rw [← a1] at h9
      exact h9
    · rw [a2]
    · intro fs hall hne
      rw [Main.images_to_pdf, openAll_all_some fs ps₀ hall]
      cases ps₀ with
      | nil => exact absurd rfl hne
      | cons a as => rfl

theorem collect_images_global_sequence_witness :
    ([imgPath 1, imgPath 2, imgPath 3, imgPath 4] : List String)[2]? =
      some (imgPath (1 + 2)) :=
  (collect_images_global_sequence
    [("doc_1", ⟨[⟨true, ["pageSectionA", "pageSectionB"], some "nav"⟩,
        ⟨true, ["pageSectionC"], some "nav disabled"⟩]⟩),
     ("doc_2", ⟨[⟨true, ["pageSectionD"], some "disabled"⟩]⟩)]
    [imgPath 1, imgPath 2, imgPath 3, imgPath 4] (by rfl)).1 2 (by decide)

theorem secCount_cons (p : Page) (t : List Page) :
    secCount (p :: t) = p.sections.length + secCount t := by
  simp [secCount]

theorem secList_cons (p : Page) (t : List Page) :
    secList (p :: t) = p.sections ++ secList t := by
  simp [secList]

theorem totalSec_cons (nd : String × Document) (ds : List (String × Document)) :
    totalSec (nd :: ds) = secCount nd.2.pages + totalSec ds := by
  simp [totalSec]

theorem docLoop_wf (pages : List Page) (c : Nat) (h : wfPages pages = true) :
    ∃ sh, Main.docLoop c pages = .ok (numbered c (secCount pages), sh, c + secCount pages) ∧
      sh.map Prod.fst = secList pages ∧ sh.map Prod.snd = numbered c (secCount pages) := by
  induction pages generalizing c with
  | nil => simp [wfPages] at h
  | cons p tail ih =>
    cases tail with
    | nil =>
      simp only [wfPages, Bool.and_eq_true] at h
      obtain ⟨⟨hca, hne⟩, hcls⟩ := h
      have hne' : p.sections ≠ [] := by simpa [List.isEmpty_iff] using hne
      cases hn : p.nextClass with
      | none => rw [hn] at hcls; simp at hcls
      | some cls =>
        rw [hn] at hcls
        refine ⟨p.sections.zip (numbered c p.sections.length), ?_, ?_, ?_⟩
        · rw [docLoop_disabled c p [] cls hca hne' hn hcls]
          simp [secCount]
        · rw [List.map_fst_zip _ _ (by rw [numbered_length])]
          simp [secList]
        · rw [List.map_snd_zip _ _ (by rw [numbered_length])]
          simp [secCount]
    | cons q rest =>
      simp only [wfPages, Bool.and_eq_true] at h
      obtain ⟨⟨⟨hca, hne⟩, hcls⟩, hwf⟩ := h
      have hne' : p.sections ≠ [] := by simpa [List.isEmpty_iff] using hne
      cases hn : p.nextClass with
      | none => rw [hn] at hcls; simp at hcls
      | some cls =>
        rw [hn] at hcls
        have hcls' : hasDisabled cls = false := by simpa using hcls
        obtain ⟨sh₁, hrec, hfst, hsnd⟩ := ih (c + p.sections.length) hwf
        refine ⟨p.sections.zip (numbered c p.sections.length) ++ sh₁, ?_, ?_, ?_⟩
        · rw [docLoop_advance c p (q :: rest) cls hca hne' hn hcls', hrec]
          dsimp only
          rw [secCount_cons p (q :: rest), ← numbered_append]
          simp [Nat.add_assoc]
        · rw [List.map_append, hfst,
            List.map_fst_zip _ _ (by rw [numbered_length]), secList_cons p (q :: rest)]
        · rw [List.map_append, hsnd,
            List.map_snd_zip _ _ (by rw [numbered_length]), numbered_append,
            secCount_cons p (q :: rest)]

theorem collectGo_wf (docs : List (String × Document)) (c : Nat)
    (h : ∀ nd ∈ docs, wfPages nd.2.pages = true) :
    ∃ sh, Main.collectGo docs c = .ok (numbered c (totalSec docs), sh, c + totalSec docs) ∧
      sh.map Prod.fst = (docs.map fun nd => secList nd.2.pages).flatten ∧
      sh.map Prod.snd = numbered c (totalSec docs) := by
  induction docs generalizing c with
  | nil =>
    exact ⟨[], by simp [Main.collectGo, totalSec, numbered], by simp,
      by simp [totalSec, numbered]⟩
  | cons nd ds ih =>
    obtain ⟨nm, d⟩ := nd
    obtain ⟨sh₀, h₀, f₀, s₀⟩ := docLoop_wf d.pages c (h (nm, d) (by simp))
    obtain ⟨sh₁, h₁, f₁, s₁⟩ := ih (c + secCount d.pages) fun x hx => h x (by simp [hx])
    refine ⟨sh₀ ++ sh₁, ?_, ?_, ?_⟩
    · simp only [Main.collectGo, h₀, h₁]
      rw [totalSec_cons]
      dsimp only
      rw [numbered_append, Nat.add_assoc]
    · rw [List.map_append, f₀, f₁]
      simp
    · rw [List.map_append, s₀, s₁, totalSec_cons]
      exact numbered_append c (secCount d.pages) (totalSec ds)

/-- C2. For every configuration of documents each running to natural
completion with k_i sections across its pages, collect_images succeeds with
exactly the sum of the k_i paths, numbered 1 through that sum without gaps
(the j-th path, 0-based, carries number 1 + j), and the screenshot events
visit the sections in document-then-page-then-section order — documents in
mapping insertion order, pages in navigation order, sections in DOM
discovery order — with the returned paths being those events' files in the
same order. -/
theorem collect_images_totals (docs : List (String × Document))
    (h : ∀ nd ∈ docs, wfPages nd.2.pages = true) :
    ∃ ps sh, Main.collect_images docs = .ok ps ∧
      ps.length = totalSec docs ∧
      (∀ j : Nat, j < ps.length → ps[j]? = some (imgPath (1 + j))) ∧
      Main.collectGo docs 1 = .ok (ps, sh, 1 + totalSec docs) ∧
      sh.map Prod.fst = (docs.map fun nd => secList nd.2.pages).flatten ∧
      ps = sh.map Prod.snd := by
  obtain ⟨sh, hg, hf, hs⟩ := collectGo_wf docs 1 h
  refine ⟨numbered 1 (totalSec docs), sh, ?_, numbered_length 1 (totalSec docs),
    ?_, hg, hf, hs.symm⟩
  · rw [Main.collect_images, hg]
  · intro j hj
    rw [numbered_length] at hj
    exact numbered_getElem 1 (totalSec docs) j hj

theorem collect_images_totals_witness :
    ∃ ps sh,
      Main.collect_images
        [("doc_1", ⟨[⟨true, ["pageSection1", "pageSection2", "pageSection3"], some "nav"⟩,
            ⟨true, ["pageSection4", "pageSection5"], some "nav disabled"⟩]⟩),
         ("doc_2", ⟨[⟨true, ["pageSection6"], some "x disabled y"⟩]⟩)] = .ok ps ∧
      ps.length = totalSec
        [("doc_1", ⟨[⟨true, ["pageSection1", "pageSection2", "pageSection3"], some "nav"⟩,
            ⟨true, ["pageSection4", "pageSection5"], some "nav disabled"⟩]⟩),
         ("doc_2", ⟨[⟨true, ["pageSection6"], some "x disabled y"⟩]⟩)] ∧
      (∀ j : Nat, j < ps.length → ps[j]? = some (imgPath (1 + j))) ∧
      Main.collectGo
        [("doc_1", ⟨[⟨true, ["pageSection1", "pageSection2", "pageSection3"], some "nav"⟩,
            ⟨true, ["pageSection4", "pageSection5"], some "nav disabled"⟩]⟩),
         ("doc_2", ⟨[⟨true, ["pageSection6"], some "x disabled y"⟩]⟩)] 1 =
        .ok (ps, sh, 1 + totalSec
          [("doc_1", ⟨[⟨true, ["pageSection1", "pageSection2", "pageSection3"], some "nav"⟩,
              ⟨true, ["pageSection4", "pageSection5"], some "nav disabled"⟩]⟩),
           ("doc_2", ⟨[⟨true, ["pageSection6"], some "x disabled y"⟩]⟩)]) ∧
      sh.map Prod.fst =
        (([("doc_1", ⟨[⟨true, ["pageSection1", "pageSection2", "pageSection3"], some "nav"⟩,
            ⟨true, ["pageSection4", "pageSection5"], some "nav disabled"⟩]⟩),
          ("doc_2", ⟨[⟨true, ["pageSection6"], some "x disabled y"⟩]⟩)] :
            List (String × Document)).map fun nd => secList nd.2.pages).flatten ∧
      ps = sh.map Prod.snd :=
  collect_images_totals
    [("doc_1", ⟨[⟨true, ["pageSection1", "pageSection2", "pageSection3"], some "nav"⟩,
        ⟨true, ["pageSection4", "pageSection5"], some "nav disabled"⟩]⟩),
     ("doc_2", ⟨[⟨true, ["pageSection6"], some "x disabled y"⟩]⟩)] (by decide)

/-- C6. When a document's current page shows the content container but zero
sections matching the pageSection prefix, the document's pagination loop
terminates normally (no error), contributing no captures and leaving the
counter unchanged, and processing continues with the remaining documents of
the mapping exactly as if the empty document were absent. -/
theorem empty_page_skips_document (nm : String) (d : Document) (p : Page) (rest : List Page)
    (ds : List (String × Document)) (c : Nat)
    (h1 : d.pages = p :: rest) (h2 : p.contentAppears = true) (h3 : p.sections = []) :
    Main.docLoop c d.pages = .ok ([], [], c) ∧
    Main.collectGo ((nm, d) :: ds) c = Main.collectGo ds c ∧
    Main.collect_images ((nm, d) :: ds) = Main.collect_images ds := by
  have hd : ∀ c' : Nat, Main.docLoop c' d.pages = .ok ([], [], c') := fun c' => by
    rw [h1]; exact docLoop_emptySections c' p rest h2 h3
  have hgo : ∀ c' : Nat, Main.collectGo ((nm, d) :: ds) c' = Main.collectGo ds c' := fun c' => by
    simp only [Main.collectGo, hd c']
    cases hr : Main.collectGo ds c' with
    | error e => rfl
    | ok t => obtain ⟨a, b, cc⟩ := t; simp
  refine ⟨hd c, hgo c, ?_⟩
  rw [Main.collect_images, Main.collect_images, hgo 1]

theorem empty_page_skips_document_witness :
    Main.docLoop 7 (Document.mk [⟨true, [], some "nav"⟩]).pages = .ok ([], [], 7) ∧
    Main.collectGo [("doc_1", ⟨[⟨true, [], some "nav"⟩]⟩),
        ("doc_2", ⟨[⟨true, ["pageSectionZ"], some "disabled"⟩]⟩)] 7 =
      Main.collectGo [("doc_2", ⟨[⟨true, ["pageSectionZ"], some "disabled"⟩]⟩)] 7 ∧
    Main.collect_images [("doc_1", ⟨[⟨true, [], some "nav"⟩]⟩),
        ("doc_2", ⟨[⟨true, ["pageSectionZ"], some "disabled"⟩]⟩)] =
      Main.collect_images [("doc_2", ⟨[⟨true, ["pageSectionZ"], some "disabled"⟩]⟩)] :=
  empty_page_skips_document "doc_1" ⟨[⟨true, [], some "nav"⟩]⟩ ⟨true, [], some "nav"⟩ []
    [("doc_2", ⟨[⟨true, ["pageSectionZ"], some "disabled"⟩]⟩)] 7 rfl rfl rfl

/-- C7. After a page whose content container appeared, the per-document loop
is governed by the sections and the page_next control's class attribute: an
empty section list terminates the loop at the current counter; a nonempty
section list with "disabled" occurring in the class string terminates the
loop right after capturing the page's sections; otherwise the control is
clicked, the content container is awaited again under the same bounded wait
and settle delay, and the loop repeats on the advanced state with the
counter moved past the captured sections. -/
theorem next_control_governs_loop (p : Page) (rest : List Page) (c : Nat)
    (hca : p.contentAppears = true) :
    (p.sections = [] → Main.docLoop c (p :: rest) = .ok ([], [], c)) ∧
    (∀ cls, p.sections ≠ [] → p.nextClass = some cls → hasDisabled cls = true →
      Main.docLoop c (p :: rest) =
        .ok (numbered c p.sections.length,
          p.sections.zip (numbered c p.sections.length), c + p.sections.length)) ∧
    (∀ cls, p.sections ≠ [] → p.nextClass = some cls → hasDisabled cls = false →
      Main.docLoop c (p :: rest) =
        match Main.docLoop (c + p.sections.length) rest with
        | .error e => .error e
        | .ok (ps, sh, c') =>
          .ok (numbered c p.sections.length ++ ps,
            p.sections.zip (numbered c p.sections.length) ++ sh, c')) :=
  ⟨fun h => docLoop_emptySections c p rest hca h,
    fun cls h1 h2 h3 => docLoop_disabled c p rest cls hca h1 h2 h3,
    fun cls h1 h2 h3 => docLoop_advance c p rest cls hca h1 h2 h3⟩

theorem next_control_governs_loop_witness :
    ((⟨true, ["pageSectionA"], some "btn disabled"⟩ : Page).sections = [] →
      Main.docLoop 3 [⟨true, ["pageSectionA"], some "btn disabled"⟩] = .ok ([], [], 3)) ∧
    (∀ cls, (⟨true, ["pageSectionA"], some "btn disabled"⟩ : Page).sections ≠ [] →
      (⟨true, ["pageSectionA"], some "btn disabled"⟩ : Page).nextClass = some cls →
      hasDisabled cls = true →
      Main.docLoop 3 [⟨true, ["pageSectionA"], some "btn disabled"⟩] =
        .ok (numbered 3 (⟨true, ["pageSectionA"], some "btn disabled"⟩ : Page).sections.length,
          (⟨true, ["pageSectionA"], some "btn disabled"⟩ : Page).sections.zip
            (numbered 3 (⟨true, ["pageSectionA"], some "btn disabled"⟩ : Page).sections.length),
          3 + (⟨true, ["pageSectionA"], some "btn disabled"⟩ : Page).sections.length)) ∧
    (∀ cls, (⟨true, ["pageSectionA"], some "btn disabled"⟩ : Page).sections ≠ [] →
      (⟨true, ["pageSectionA"], some "btn disabled"⟩ : Page).nextClass = some cls →
      hasDisabled cls = false →
      Main.docLoop 3 [⟨true, ["pageSectionA"], some "btn disabled"⟩] =
        match Main.docLoop
            (3 + (⟨true, ["pageSectionA"], some "btn disabled"⟩ : Page).sections.length) [] with
        | .error e => .error e
        | .ok (ps, sh, c') =>
          .ok (numbered 3 (⟨true, ["pageSectionA"], some "btn disabled"⟩ : Page).sections.length ++ ps,
            (⟨true, ["pageSectionA"], some "btn disabled"⟩ : Page).sections.zip
              (numbered 3 (⟨true, ["pageSectionA"], some "btn disabled"⟩ : Page).sections.length) ++ sh,
            c')) :=
  next_control_governs_loop ⟨true, ["pageSectionA"], some "btn disabled"⟩ [] 3 rfl

/-- C8. load_config raises the FileNotFoundError-class ConfigNotFound when
the configuration resource configs/NAME.yaml does not exist; when it exists
and parses to a mapping carrying a links key, the value of that key is
returned exactly as parsed, insertion order preserved; and when the links
key is absent the empty mapping is returned. -/
theorem load_config_links (cfgFS : String → Option (List (String × List (String × String))))
    (name : String) :
    (cfgFS ("configs/" ++ name ++ ".yaml") = none →
      SrcMain.load_config cfgFS name = .error .configNotFound) ∧
    (∀ config links, cfgFS ("configs/" ++ name ++ ".yaml") = some config →
      config.lookup "links" = some links →
      SrcMain.load_config cfgFS name = .ok links) ∧
    (∀ config, cfgFS ("configs/" ++ name ++ ".yaml") = some config →
      config.lookup "links" = none →
      SrcMain.load_config cfgFS name = .ok []) := by
  refine ⟨fun h => ?_, fun config links h hl => ?_, fun config h hl => ?_⟩
  · rw [SrcMain.load_config, h]
  · rw [SrcMain.load_config, h]
    simp [hl]
  · rw [SrcMain.load_config, h]
    simp [hl]

theorem load_config_links_witness :
    ((fun p => if p = "configs/default.yaml"
        then some [("title", []), ("links", [("doc_1", "u1"), ("doc_2", "u2")])]
        else none) "configs/default.yaml" =
      some [("title", []), ("links", [("doc_1", "u1"), ("doc_2", "u2")])]) ∧
    ([("title", []), ("links", [("doc_1", "u1"), ("doc_2", "u2")])] :
        List (String × List (String × String))).lookup "links" =
      some [("doc_1", "u1"), ("doc_2", "u2")] ∧
    SrcMain.load_config
      (fun p => if p = "configs/default.yaml"
        then some [("title", []), ("links", [("doc_1", "u1"), ("doc_2", "u2")])]
        else none) "default" = .ok [("doc_1", "u1"), ("doc_2", "u2")] := by
  refine ⟨by decide, by decide, ?_⟩
  exact (load_config_links _ "default").2.1
    [("title", []), ("links", [("doc_1", "u1"), ("doc_2", "u2")])]
    [("doc_1", "u1"), ("doc_2", "u2")] (by decide) (by decide)

theorem collectGo_error_prop (pre : List (String × Document)) (nm : String) (d : Document)
    (post : List (String × Document)) (c0 c : Nat) (ps : List String)
    (sh : List (String × String)) (e : Err)
    (h1 : Main.collectGo pre c0 = .ok (ps, sh, c))
    (h2 : Main.docLoop c d.pages = .error e) :
    Main.collectGo (pre ++ (nm, d) :: post) c0 = .error e := by
  induction pre generalizing c0 ps sh c with
  | nil =>
    simp only [Main.collectGo] at h1
    injection h1 with h'
    simp only [Prod.mk.injEq] at h'
    obtain ⟨_, _, h3⟩ := h'
    subst h3
    simp only [List.nil_append, Main.collectGo, h2]
  | cons hd tl ih =>
    obtain ⟨nm', d'⟩ := hd
    simp only [Main.collectGo, List.cons_append] at h1 ⊢
    cases hh : Main.docLoop c0 d'.pages with
    | error e' => rw [hh] at h1; cases h1
    | ok t =>
      obtain ⟨ps₀, sh₀, c₀⟩ := t
      rw [hh] at h1
      dsimp only at h1 ⊢
      cases hr : Main.collectGo tl c₀ with
      | error e' => rw [hr] at h1; cases h1
      | ok t' =>
        obtain ⟨ps₁, sh₁, c₁⟩ := t'
        rw [hr] at h1
        injection h1 with h'
        simp only [Prod.mk.injEq] at h'
        obtain ⟨_, _, h3⟩ := h'
        subst h3
        simp only [List.append_eq]
        rw [ih _ _ _ _ hr h2]

/-- C9. Errors are never retried and abort the whole run: whenever some
prefix of the document mapping has been processed and the next document's
pagination fails with any error — a NavigationTimeout from a wait that
expires after a load or a page-advance click, or an ElementNotFound — that
same error is the outcome of the entire run, regardless of the documents
still pending; and on every exit path of the try/finally region, success or
either failure, the browser session is closed. -/
theorem run_aborts_and_closes_driver :
    (∀ docs fs, (Main.mainRun docs fs).driverClosed = true) ∧
    (∀ pre nm d post c ps sh e fs,
      Main.collectGo pre 1 = .ok (ps, sh, c) →
      Main.docLoop c d.pages = .error e →
      (Main.mainRun (pre ++ (nm, d) :: post) fs).outcome = .error e ∧
      (Main.mainRun (pre ++ (nm, d) :: post) fs).driverClosed = true) := by
  have hc : ∀ docs fs, (Main.mainRun docs fs).driverClosed = true := by
    intro docs fs
    rw [Main.mainRun]
    cases Main.collect_images docs with
    | error e => rfl
    | ok images =>
      dsimp only
      cases Main.images_to_pdf fs images with
      | error e => rfl
      | ok pdf => rfl
  refine ⟨hc, fun pre nm d post c ps sh e fs h1 h2 => ⟨?_, hc _ fs⟩⟩
  have hci : Main.collect_images (pre ++ (nm, d) :: post) = .error e := by
    rw [Main.collect_images, collectGo_error_prop pre nm d post 1 c ps sh e h1 h2]
  rw [Main.mainRun, hci]

theorem run_aborts_and_closes_driver_witness :
    (Main.mainRun [("doc_1", ⟨[⟨true, ["pageSectionA"], some "disabled"⟩]⟩),
        ("doc_2", ⟨[⟨false, [], none⟩]⟩), ("doc_3", ⟨[⟨true, [], none⟩]⟩)]
      (fun _ => none)).outcome = .error .navigationTimeout ∧
    (Main.mainRun [("doc_1", ⟨[⟨true, ["pageSectionA"], some "disabled"⟩]⟩),
        ("doc_2", ⟨[⟨false, [], none⟩]⟩), ("doc_3", ⟨[⟨true, [], none⟩]⟩)]
      (fun _ => none)).driverClosed = true :=
  run_aborts_and_closes_driver.2
    [("doc_1", ⟨[⟨true, ["pageSectionA"], some "disabled"⟩]⟩)] "doc_2" ⟨[⟨false, [], none⟩]⟩
    [("doc_3", ⟨[⟨true, [], none⟩]⟩)] 2 [imgPath 1] [("pageSectionA", imgPath 1)]
    .navigationTimeout (fun _ => none) (by rfl) (by rfl)

theorem capturePage_same (ss : List String) (c : Nat) :
    Main.capturePage c ss = SrcMain.capturePage c ss := by
  induction ss generalizing c with
  | nil => rfl
  | cons s ss ih => simp [Main.capturePage, SrcMain.capturePage, ih]

theorem docLoop_same (pages : List Page) (c : Nat) :
    Main.docLoop c pages = SrcMain.docLoop c pages := by
  induction pages generalizing c with
  | nil => rfl
  | cons p rest ih =>
    rw [Main.docLoop, SrcMain.docLoop, capturePage_same]
    simp only [ih]

theorem collectGo_same (docs : List (String × Document)) (c : Nat) :
    Main.collectGo docs c = SrcMain.collectGo docs c := by
  induction docs generalizing c with
  | nil => rfl
  | cons nd ds ih =>
    obtain ⟨nm, d⟩ := nd
    rw [Main.collectGo, SrcMain.collectGo, docLoop_same]
    cases SrcMain.docLoop c d.pages with
    | error e => rfl
    | ok t => obtain ⟨ps, sh, c'⟩ := t; dsimp only; rw [ih]

theorem openAll_same (fs : String → Option Img) (images : List String) :
    Main.openAll fs images = SrcMain.openAll fs images := by
  induction images with
  | nil => rfl
  | cons p ps ih => rw [Main.openAll, SrcMain.openAll, ih]

/-- C10. The two entry points' core functions are behaviorally equivalent:
collect_images of src/main.py and collect_images of src/src/main.py agree on
every session world and document mapping — same captures, same ordered path
list or error — and the two images_to_pdf functions agree on every
filesystem and input list. -/
theorem duplicate_entry_points_agree :
    (∀ docs, Main.collect_images docs = SrcMain.collect_images docs) ∧
    (∀ docs c, Main.collectGo docs c = SrcMain.collectGo docs c) ∧
    (∀ fs images, Main.images_to_pdf fs images = SrcMain.images_to_pdf fs images) := by
  refine ⟨fun docs => ?_, collectGo_same, fun fs images => ?_⟩
  · rw [Main.collect_images, SrcMain.collect_images, collectGo_same]
  · rw [Main.images_to_pdf, SrcMain.images_to_pdf, openAll_same]

end AL
